import Mathlib

/-!
Shallow embedding of the demo drivers of nash169/demo-learn-embedding:
src/sim_os.cpp, src/simulation/id_modelbased.cpp and tmp/id_modelfree.cpp.

Real scalars (C++ double) are modelled as rationals.  A Euclidean norm
comparison (a - b).norm() <= eps with eps >= 0 is embedded as the equivalent
squared comparison sqnorm3 (a - b) <= eps ^ 2, which is rational-valued.
External collaborators that are not part of this repository (the physics
engine, pinocchio kinematics, the QP solver, the zmq requester) enter as
function parameters or input streams.
-/

namespace Demo

/-- Column vectors of dimension n (Eigen::VectorXd with fixed size). -/
abbrev Vec (n : Nat) := Fin n → ℚ

/-- Matrices (Eigen::MatrixXd with fixed sizes). -/
abbrev Mat (m n : Nat) := Matrix (Fin m) (Fin n) ℚ

/-- Squared Euclidean norm of a 3-vector: (v).squaredNorm(). -/
def sqnorm3 (v : Vec 3) : ℚ := v 0 * v 0 + v 1 * v 1 + v 2 * v 2

/-- Assembling a 6-vector from its head(3) and tail(3). -/
def vcat (a b : Vec 3) : Vec 6 := ![a 0, a 1, a 2, b 0, b 1, b 2]

/-- u.head(3) of a 6-vector. -/
def linPart (u : Vec 6) : Vec 3 := ![u 0, u 1, u 2]

/-- u.tail(3) of a 6-vector. -/
def angPart (u : Vec 6) : Vec 3 := ![u 3, u 4, u 5]

/-- control_lib spatial::SE<3> element: translation _trans, rotation _rot and
spatial velocity _v (linear then angular). -/
structure SE3 where
  trans : Vec 3
  rot : Mat 3 3
  v : Vec 6

/-- Modelled from the spec: control_lib's Feedback PD block (not under src/),
spec sections 4.2 and 4.4: on R^n the output is u = K (x* - x) + D (v* - v).
Gains left unset at construction contribute zero (the demos set only the gains
they use), and a spatial::R whose velocity field is never assigned carries
velocity zero. -/
def feedbackR {n : Nat} (K D : Mat n n) (xr vr x v : Vec n) : Vec n :=
  K.mulVec (xr - x) + D.mulVec (vr - v)

/-- SE(3) error x* (-) x: translation difference and rotation log.  The log map
is an external geometric routine of control_lib, kept as the parameter
so3log (applied to the two rotations). -/
def se3Err (so3log : Mat 3 3 → Mat 3 3 → Vec 3) (xr x : SE3) : Vec 6 :=
  vcat (fun i => xr.trans i - x.trans i) (so3log xr.rot x.rot)

/-- Modelled from the spec: control_lib's Feedback block on SE(3) (spec section
4.4): u = K (x* (-) x) + D (x*.v - x.v). -/
def feedbackSE3 (so3log : Mat 3 3 → Mat 3 3 → Vec 3) (K D : Mat 6 6)
    (xr x : SE3) : Vec 6 :=
  K.mulVec (se3Err so3log xr x) + D.mulVec (fun i => xr.v i - x.v i)

/-- State of the TaskDynamics block (present in all three source files):
position PD gains and reference, rotation PD gains (constructed but unused by
update), and the one-way latch flag _external.  The remote Requester is passed
as a function argument at each call site. -/
structure TaskDyn where
  posK : Mat 3 3
  posD : Mat 3 3
  refTrans : Vec 3
  refVel : Vec 3
  rotK : Mat 3 3
  rotD : Mat 3 3
  extFlag : Bool

/-- TaskDynamics::setExternal (all three files). -/
def TaskDyn.setExtFlag (td : TaskDyn) (b : Bool) : TaskDyn := { td with extFlag := b }

/-- TaskDynamics::update of sim_os.cpp (lines 145-153): _u.head(3) is the remote
reply at x._trans when _external, else the position PD at R3(x._trans) (whose
velocity field is never assigned, hence zero); _u.tail(3) is set to zero and
the rotation PD is commented out. -/
def TaskDyn.updateOS (td : TaskDyn) (request : Vec 3 → Vec 3) (x : SE3) : Vec 6 :=
  vcat (if td.extFlag then request x.trans
        else feedbackR td.posK td.posD td.refTrans td.refVel x.trans 0) 0

/-- TaskDynamics::update of id_modelbased.cpp (lines 137-149) and of
id_modelfree.cpp (lines 131-143), which are identical: the position PD is fed
the current linear velocity p._v = x._v.head(3); _u.tail(3) is set to zero and
the rotation PD is commented out. -/
def TaskDyn.updateQP (td : TaskDyn) (request : Vec 3 → Vec 3) (x : SE3) : Vec 6 :=
  vcat (if td.extFlag then request x.trans
        else feedbackR td.posK td.posD td.refTrans td.refVel x.trans (linPart x.v)) 0

/-- TaskDynamics constructor plus setReference of sim_os.cpp (116-135): position
stiffness 5 I with damping unset, rotation stiffness 1 I, external = false; the
reference velocity of the position PD is never assigned (zero). -/
def TaskDyn.initOS (refTrans : Vec 3) : TaskDyn :=
  { posK := (5 : ℚ) • (1 : Mat 3 3), posD := 0, refTrans := refTrans, refVel := 0
  , rotK := (1 : Mat 3 3), rotD := 0, extFlag := false }

/-- OperationSpaceController state (sim_os.cpp 167-218): the reference pose
_ref_pose, the task dynamics _ds, the gains of the SE(3) feedback _ctr, and the
rows appended so far by the CSV writer. -/
structure OSCtrl where
  refPose : SE3
  ds : TaskDyn
  ctrK : Mat 6 6
  ctrD : Mat 6 6
  writer : List (Vec 3)

/-- OperationSpaceController constructor (sim_os.cpp 168-181):
_ds.setReference(ref_pose); _ctr damping diag(20,20,20,1,1,1) with stiffness
unset (zero, see feedbackR); the writer opens demo_os_0.csv with no rows. -/
def OSCtrl.init (refPose : SE3) : OSCtrl :=
  { refPose := refPose
  , ds := TaskDyn.initOS refPose.trans
  , ctrK := 0
  , ctrD := Matrix.diagonal ![20, 20, 20, 1, 1, 1]
  , writer := [] }

/-- The latch step inside OperationSpaceController::action (sim_os.cpp 192-193):
if (curr_pose._trans - _ref_pose._trans).norm() <= 0.05 and the flag is not yet
set, set it.  0.05 squared is 1/400. -/
def osLatch (refTrans : Vec 3) (td : TaskDyn) (p : Vec 3) : TaskDyn :=
  if sqnorm3 (fun i => p i - refTrans i) ≤ 1/400 ∧ td.extFlag = false
  then td.setExtFlag true else td

/-- OperationSpaceController::action (sim_os.cpp 183-206).  The rigid-body model
routines (framePose split into translation and rotation, and the jacobian) and
the remote requester are parameters.  In source order: read (q, dq); if the
flag is set append the current translation to the writer; run the latch step;
compute J, set curr_pose._v = J dq, set _ref_pose._v to the task-dynamics
output at the current pose, and return tau = J^T _ctr(curr_pose).  Returns the
torque together with the updated controller state. -/
def OSCtrl.action (fp : Vec 7 → Vec 3 × Mat 3 3) (jac : Vec 7 → Mat 6 7)
    (request : Vec 3 → Vec 3) (so3log : Mat 3 3 → Mat 3 3 → Vec 3)
    (c : OSCtrl) (q dq : Vec 7) : Vec 7 × OSCtrl :=
  let currTrans := (fp q).1
  let writer' := if c.ds.extFlag then c.writer ++ [currTrans] else c.writer
  let ds' := osLatch c.refPose.trans c.ds currTrans
  let J := jac q
  let curr : SE3 := { trans := currTrans, rot := (fp q).2, v := J.mulVec dq }
  let u := ds'.updateOS request curr
  let refPose' : SE3 := { c.refPose with v := u }
  let tau := J.transpose.mulVec (feedbackSE3 so3log c.ctrK c.ctrD refPose' curr)
  (tau, { c with refPose := refPose', ds := ds', writer := writer' })

/-- Iterated controller ticks of the operation-space demo; the per-tick joint
state is an input stream sampled from the simulator. -/
def osTrace (fp : Vec 7 → Vec 3 × Mat 3 3) (jac : Vec 7 → Mat 6 7)
    (request : Vec 3 → Vec 3) (so3log : Mat 3 3 → Mat 3 3 → Vec 3)
    (q dq : ℕ → Vec 7) (c0 : OSCtrl) : ℕ → OSCtrl
  | 0 => c0
  | n + 1 =>
      (OSCtrl.action fp jac request so3log
        (osTrace fp jac request so3log q dq c0 n) (q n) (dq n)).2

/-- Follows the spec's words (claim C2, spec section 4.4): with J = jacobian(q),
current twist x.v = J q_dot and reference twist x*.v equal to the
task-dynamics output at the current pose, the returned torque is
tau = J^T (K_ct (x* (-) x) + D_ct (x*.v - x.v)).  The task-dynamics state is
the block's state at evaluation time, that is after the latch step of the same
tick. -/
def specOsTorque (fp : Vec 7 → Vec 3 × Mat 3 3) (jac : Vec 7 → Mat 6 7)
    (request : Vec 3 → Vec 3) (so3log : Mat 3 3 → Mat 3 3 → Vec 3)
    (c : OSCtrl) (q dq : Vec 7) : Vec 7 :=
  let J := jac q
  let x : SE3 := { trans := (fp q).1, rot := (fp q).2, v := J.mulVec dq }
  let xr : SE3 :=
    { c.refPose with v := (osLatch c.refPose.trans c.ds (fp q).1).updateOS request x }
  J.transpose.mulVec
    (c.ctrK.mulVec (se3Err so3log xr x) + c.ctrD.mulVec (fun i => xr.v i - x.v i))

/-- Exit causes of the demo main loops. -/
inductive Cause where
  | horizon : Cause
  | engine : Cause
  | goal : Cause
deriving DecidableEq

/-- sim_os.cpp main-loop state (lines 268-288): simulated time t, the deadline
timestamp next counted in milliseconds, and the exit reason once halted. -/
structure OSLoop where
  t : ℚ
  next : ℤ
  reason : Option Cause

/-- Whether the sim_os loop has exited. -/
def OSLoop.halted (s : OSLoop) : Bool := s.reason.isSome

/-- One iteration of the sim_os.cpp while-loop (274-288): head check t <= T with
T = 20; simulator.step returning false breaks; t += dt with dt = 1e-3; the
goal check (framePosition(state) - offset).norm() <= 0.05 breaks; otherwise
next += 1ms and sleep_until(next).  The engine-stop stream and the per-tick
end-effector position are inputs from the simulator. -/
def osLoopStep (stop : ℕ → Bool) (ee : ℕ → Vec 3) (offset : Vec 3) (n : ℕ)
    (s : OSLoop) : OSLoop :=
  if s.reason.isSome then s
  else if ¬ (s.t ≤ 20) then { s with reason := some Cause.horizon }
  else if stop n then { s with reason := some Cause.engine }
  else if sqnorm3 (fun i => ee n i - offset i) ≤ 1/400
  then { s with t := s.t + 1/1000, reason := some Cause.goal }
  else { s with t := s.t + 1/1000, next := s.next + 1 }

/-- Loop entry state of sim_os.cpp main: t = 0, next = steady_clock::now(). -/
def OSLoop.start (next0 : ℤ) : OSLoop := { t := 0, next := next0, reason := none }

/-- The sim_os.cpp main-loop trace. -/
def osRun (stop : ℕ → Bool) (ee : ℕ → Vec 3) (offset : Vec 3) (next0 : ℤ) :
    ℕ → OSLoop
  | 0 => OSLoop.start next0
  | n + 1 => osLoopStep stop ee offset n (osRun stop ee offset next0 n)

/-- id_modelbased.cpp main-loop state (lines 334-359): additionally the enter
guard and the controller's task-dynamics external flag, reached through
setExternalDynamics. -/
structure MBLoop where
  t : ℚ
  next : ℤ
  enter : Bool
  extFlag : Bool
  reason : Option Cause

/-- Whether the id_modelbased loop has exited. -/
def MBLoop.halted (s : MBLoop) : Bool := s.reason.isSome

/-- One iteration of the id_modelbased.cpp while-loop (342-359): head check
t <= T with T = 40; engine stop breaks; t += dt; if
(xDes - framePosition).norm() <= 0.01 and enter, activate the external
dynamics and clear enter; next += 1ms and sleep.  0.01 squared is 1/10000. -/
def mbLoopStep (stop : ℕ → Bool) (ee : ℕ → Vec 3) (xDes : Vec 3) (n : ℕ)
    (s : MBLoop) : MBLoop :=
  if s.reason.isSome then s
  else if ¬ (s.t ≤ 40) then { s with reason := some Cause.horizon }
  else if stop n then { s with reason := some Cause.engine }
  else if sqnorm3 (fun i => xDes i - ee n i) ≤ 1/10000 ∧ s.enter
  then { s with t := s.t + 1/1000, extFlag := true, enter := false, next := s.next + 1 }
  else { s with t := s.t + 1/1000, next := s.next + 1 }

/-- Loop entry state of id_modelbased.cpp main: t = 0, enter = true, and the
controller's task dynamics starts with _external = false. -/
def MBLoop.start (next0 : ℤ) : MBLoop :=
  { t := 0, next := next0, enter := true, extFlag := false, reason := none }

/-- The id_modelbased.cpp main-loop trace. -/
def mbRun (stop : ℕ → Bool) (ee : ℕ → Vec 3) (xDes : Vec 3) (next0 : ℤ) :
    ℕ → MBLoop
  | 0 => MBLoop.start next0
  | n + 1 => mbLoopStep stop ee xDes n (mbRun stop ee xDes next0 n)

/-- Modelled from the spec: the QP decision vector z = [qddot (nP); tau (nC);
s (nS)] (spec section 4.5; QuadraticControl is not under src/).  For
id_modelbased.cpp nP = nC = 7 and nS = 6, total length 20. -/
def zOfBlocks (qdd tau : Vec 7) (s : Vec 6) : Vec 20 := fun i =>
  if h : i.val < 7 then qdd ⟨i.val, h⟩
  else if h2 : i.val < 14 then tau ⟨i.val - 7, by omega⟩
  else s ⟨i.val - 14, by omega⟩

/-- IKController::action of id_modelbased.cpp (lines 244-264), from the QP
solution onward: return sol.segment(7, 7).  The solver output of this tick is
the input sol. -/
def ikActionTorque (sol : Vec 20) : Vec 7 := fun i => sol ⟨7 + i.val, by omega⟩

/-- Joint-space PD stiffness of id_modelfree.cpp (lines 221-226). -/
def mfK : Mat 7 7 := Matrix.diagonal ![950, 950, 950, 950, 500, 500, 50]

/-- Joint-space PD damping of id_modelfree.cpp (lines 221-226). -/
def mfD : Mat 7 7 := Matrix.diagonal ![10, 10, 10, 10, 10, 10, 1]

/-- IDController::action of id_modelfree.cpp (lines 241-257), from the QP
solution onward (nC = 0, decision vector z = [qddot (7); s (6)] of length 13):
ref = q + dt dq + 0.5 dt^2 sol.segment(0, 7) with dt = 0.01 = 1/100 (so
0.5 dt^2 = 1/20000), ref velocity zero; the returned torque is the joint PD
(mfK, mfD) toward ref plus gravityVector(q). -/
def idActionTorque (sol : Vec 13) (grav q dq : Vec 7) : Vec 7 :=
  let qdd : Vec 7 := fun i => sol ⟨i.val, by omega⟩
  let ref : Vec 7 := q + (1/100 : ℚ) • dq + (1/20000 : ℚ) • qdd
  feedbackR mfK mfD ref 0 q dq + grav

/-- YAML subtree model: 3-vector leaves and string-keyed mappings. -/
inductive Yaml where
  | vec : Vec 3 → Yaml
  | node : List (String × Yaml) → Yaml

/-- config[k] lookup on a YAML mapping. -/
def Yaml.get : Yaml → String → Option Yaml
  | Yaml.node es, k => (es.find? (fun e => e.1 == k)).map (fun e => e.2)
  | _, _ => none

/-- as<std::vector<double>> on a 3-vector leaf. -/
def Yaml.asVec3 : Yaml → Option (Vec 3)
  | Yaml.vec v => some v
  | _ => none

/-- sim_os.cpp line 239: offset = config["offset"].as<std::vector<double>>(). -/
def osOffsetOf (cfg : Yaml) : Option (Vec 3) := (cfg.get "offset").bind Yaml.asVec3

/-- id_modelbased.cpp line 301 and id_modelfree.cpp line 294:
offset = config["dynamics"]["offset"].as<std::vector<double>>(). -/
def qpOffsetOf (cfg : Yaml) : Option (Vec 3) :=
  ((cfg.get "dynamics").bind (fun y => y.get "offset")).bind Yaml.asVec3

/-- trajectories.back().rowwise() += offset: every row translated by the offset. -/
def translateRows (offset : Vec 3) (rows : List (Vec 3)) : List (Vec 3) :=
  rows.map (fun r => r + offset)

/-- The trajectory loading loop of sim_os.cpp (241-247): files i = 1..7, each
read as a list of rows and translated by the offset before display. -/
def loadTrajOS (readCsv : ℕ → List (Vec 3)) (offset : Vec 3) : List (List (Vec 3)) :=
  (List.range 7).map (fun i => translateRows offset (readCsv (i + 1)))

/-- The trajectory loading loop of id_modelbased.cpp (303-309) and of
id_modelfree.cpp (296-302): files i = 1..1. -/
def loadTrajQP (readCsv : ℕ → List (Vec 3)) (offset : Vec 3) : List (List (Vec 3)) :=
  (List.range 1).map (fun i => translateRows offset (readCsv (i + 1)))

/-- sim_os.cpp line 180: the CSV writer's file name, a fixed string literal. -/
def osLogFile : String := "demo_os_0.csv"

/-- Demo selection of every main: demo = argc > 1 ? "demo_" + argv[1] : "demo_1". -/
def demoName (arg : Option String) : String :=
  match arg with
  | some s => "demo_" ++ s
  | none => "demo_1"

/-- Concrete jacobian for evaluation: a single 1 in the top-left entry. -/
def cexJac : Mat 6 7 := Matrix.of fun i j => if i.val = 0 ∧ j.val = 0 then 1 else 0

/-- Concrete frame-pose routine for evaluation: translation 0, identity rotation. -/
def cexFp : Vec 7 → Vec 3 × Mat 3 3 := fun _ => (0, 1)

/-- Concrete reference pose for evaluation. -/
def cexRefPose : SE3 := { trans := ![1, 0, 0], rot := 1, v := 0 }

/-- Concrete remote requester for evaluation. -/
def cexReq : Vec 3 → Vec 3 := fun _ => 0

/-- Concrete rotation log for evaluation (both rotations are the identity). -/
def cexLog : Mat 3 3 → Mat 3 3 → Vec 3 := fun _ _ => 0

/-- Concrete YAML configuration holding different vectors at the top-level key
"offset" and at the nested key "dynamics.offset". -/
def cexCfg : Yaml :=
  Yaml.node [("offset", Yaml.vec ![1, 0, 0]),
             ("dynamics", Yaml.node [("offset", Yaml.vec ![2, 0, 0])])]

/-- The latch trigger of operation-space tick n: the current end-effector
translation is within 0.05 of the reference translation. -/
def osWithin (fp : Vec 7 → Vec 3 × Mat 3 3) (q : ℕ → Vec 7) (refTrans : Vec 3)
    (n : ℕ) : Prop :=
  sqnorm3 (fun i => (fp (q n)).1 i - refTrans i) ≤ 1/400

instance osWithinDec (fp : Vec 7 → Vec 3 × Mat 3 3) (q : ℕ → Vec 7)
    (refTrans : Vec 3) (n : ℕ) : Decidable (osWithin fp q refTrans n) :=
  inferInstanceAs (Decidable (sqnorm3 (fun i => (fp (q n)).1 i - refTrans i) ≤ 1/400))

theorem linPart_vcat (a b : Vec 3) : linPart (vcat a b) = a := by
  funext i
  fin_cases i <;> rfl

theorem angPart_vcat (a b : Vec 3) : angPart (vcat a b) = b := by
  funext i
  fin_cases i <;> rfl

/-- Claim C10: in every variant of the task-dynamics block, for every input pose
and regardless of the external flag, the angular (last three) components of the
output 6-vector are zero after update; the rotation PD is constructed and given
gains (the rotK, rotD fields) but never contributes to the output. -/
theorem taskdyn_angular_zero (td : TaskDyn) (request : Vec 3 → Vec 3) (x : SE3) :
    angPart (td.updateOS request x) = 0 ∧ angPart (td.updateQP request x) = 0 := by
  constructor
  · funext i; fin_cases i <;> rfl
  · funext i; fin_cases i <;> rfl

/-- Claim C4: for every pose x passed to the task-dynamics update, if the
external flag is set the linear (first three) components of the output are the
remote client's reply to a request carrying x.trans; otherwise they are the
position PD evaluated at (x.t, x.tdot).  The QP-demo variant feeds the PD the
current linear velocity directly; the sim_os variant feeds it a zero velocity,
which coincides with the PD at (x.t, x.tdot) because that variant's damping is
never set (zero), as in the second conjunct where the block is built with zero
damping. -/
theorem taskdyn_linear_output (td : TaskDyn) (K rK rD : Mat 3 3)
    (rT rV : Vec 3) (flag : Bool) (request : Vec 3 → Vec 3) (x : SE3) :
    linPart (TaskDyn.updateQP td request x)
      = (if td.extFlag then request x.trans
         else feedbackR td.posK td.posD td.refTrans td.refVel x.trans (linPart x.v))
    ∧ linPart (TaskDyn.updateOS ⟨K, 0, rT, rV, rK, rD, flag⟩ request x)
      = (if flag then request x.trans
         else feedbackR K 0 rT rV x.trans (linPart x.v)) := by
  constructor
  · rw [TaskDyn.updateQP, linPart_vcat]
  · rw [TaskDyn.updateOS, linPart_vcat]
    by_cases h : flag <;> simp [h, feedbackR, Matrix.zero_mulVec]

/-- Claim C2: for every joint state (q, dq) sampled at a tick, the
operation-space controller returns tau = J^T (K_ct (x* (-) x) + D_ct (x*.v -
x.v)) with J = jacobian(q), the current twist x.v = J dq, and the reference
twist x*.v the task-dynamics output evaluated at the current pose; (-) is the
SE(3) error (translation difference and rotation log), spelled out by
specOsTorque which follows the spec's words. -/
theorem os_action_torque (fp : Vec 7 → Vec 3 × Mat 3 3) (jac : Vec 7 → Mat 6 7)
    (request : Vec 3 → Vec 3) (so3log : Mat 3 3 → Mat 3 3 → Vec 3)
    (c : OSCtrl) (q dq : Vec 7) :
    (OSCtrl.action fp jac request so3log c q dq).1
      = specOsTorque fp jac request so3log c q dq := rfl

/-- Claim C3: in the QP inverse-dynamics controller the decision vector is
z = [qddot (nP); tau (nC); s (nS)]; with nC = 7 > 0 (id_modelbased) the
returned torque is exactly the tau block, components nP..nP+nC-1, of the QP
solution; with nC = 0 (id_modelfree) the returned torque is the diagonal
joint-space PD (mfK, mfD) toward q* = q + dt dq + 0.5 dt^2 qddot with zero
reference velocity, plus the gravity vector. -/
theorem qp_torque_extraction (qdd tau : Vec 7) (s : Vec 6) (sol : Vec 13)
    (grav q dq : Vec 7) :
    ikActionTorque (zOfBlocks qdd tau s) = tau
    ∧ idActionTorque sol grav q dq
      = mfK.mulVec
          ((q + (1/100 : ℚ) • dq + (1/20000 : ℚ) • (fun i : Fin 7 => sol ⟨i.val, by omega⟩)) - q)
        + mfD.mulVec (0 - dq) + grav := by
  constructor
  · funext i
    have h1 : ¬ (7 + i.val < 7) := by omega
    have h2 : 7 + i.val < 14 := by omega
    simp only [ikActionTorque, zOfBlocks, h1, h2, dif_neg, dif_pos, not_false_iff]
    exact congrArg tau (Fin.ext (show 7 + i.val - 7 = i.val by omega))
  · rfl

/-- Claim C5 amended: with zero joint velocity the returned torque is
J^T (K_ct (x* (-) x) + D_ct u), where u is the task-dynamics output at the
current pose (the code overwrites the reference twist x*.v with u every tick),
so the damping matrix contributes through u even though the current twist is
zero; the damping contribution vanishes only when u itself is zero. -/
theorem os_zero_velocity_torque (fp : Vec 7 → Vec 3 × Mat 3 3)
    (jac : Vec 7 → Mat 6 7) (request : Vec 3 → Vec 3)
    (so3log : Mat 3 3 → Mat 3 3 → Vec 3) (c : OSCtrl) (q : Vec 7) :
    (OSCtrl.action fp jac request so3log c q 0).1
      = (jac q).transpose.mulVec
          (c.ctrK.mulVec
             (se3Err so3log
               { c.refPose with
                   v := (osLatch c.refPose.trans c.ds (fp q).1).updateOS request
                          { trans := (fp q).1, rot := (fp q).2, v := (jac q).mulVec 0 } }
               { trans := (fp q).1, rot := (fp q).2, v := (jac q).mulVec 0 })
           + c.ctrD.mulVec
               ((osLatch c.refPose.trans c.ds (fp q).1).updateOS request
                  { trans := (fp q).1, rot := (fp q).2, v := (jac q).mulVec 0 })) := by
  have hz : (jac q).mulVec (0 : Vec 7) = 0 := Matrix.mulVec_zero _
  simp only [OSCtrl.action, feedbackSE3]
  funext i
  simp [hz]

/-- Claim C5 counterexample: at a concrete input with a stationary reference
pose and zero joint velocity, the operation-space controller's returned torque
differs from J^T K_ct (x* (-) x): the damping matrix multiplies the
task-dynamics output held in the overwritten reference twist, so the damping
contribution does not vanish even though the current twist is zero. -/
theorem os_no_damping_cex :
    (OSCtrl.action cexFp (fun _ => cexJac) cexReq cexLog (OSCtrl.init cexRefPose) 0 0).1
      ≠ cexJac.transpose.mulVec
          ((OSCtrl.init cexRefPose).ctrK.mulVec
            (se3Err cexLog cexRefPose { trans := 0, rot := 1, v := 0 })) := by
  intro h
  have h0 := congrFun h 0
  simp only [OSCtrl.action, OSCtrl.init, TaskDyn.initOS, TaskDyn.setExtFlag, osLatch,
    TaskDyn.updateOS, feedbackR, feedbackSE3, se3Err, vcat, linPart,
    cexFp, cexReq, cexLog, cexRefPose, cexJac, sqnorm3,
    Matrix.mulVec, Matrix.dotProduct, Matrix.transpose_apply, Matrix.zero_mulVec,
    Matrix.smul_apply, Matrix.one_apply, Matrix.diagonal, Matrix.of_apply,
    Fin.sum_univ_succ, Fin.sum_univ_zero,
    Matrix.cons_val_zero, Matrix.cons_val_one, Matrix.head_cons,
    Pi.zero_apply, Pi.sub_apply, Pi.add_apply] at h0
  norm_num [Matrix.mulVec, Matrix.dotProduct, Fin.sum_univ_succ, Matrix.smul_apply,
    Matrix.one_apply, Matrix.cons_val_zero, Matrix.cons_val_one, Matrix.head_cons,
    Fin.ext_iff] at h0

theorem os_action_ext (fp : Vec 7 → Vec 3 × Mat 3 3) (jac : Vec 7 → Mat 6 7)
    (request : Vec 3 → Vec 3) (so3log : Mat 3 3 → Mat 3 3 → Vec 3)
    (c : OSCtrl) (q dq : Vec 7) :
    ((OSCtrl.action fp jac request so3log c q dq).2).ds.extFlag
      = (c.ds.extFlag
         || decide (sqnorm3 (fun i => (fp q).1 i - c.refPose.trans i) ≤ 1/400)) := by
  show (osLatch c.refPose.trans c.ds (fp q).1).extFlag
    = (c.ds.extFlag
       || decide (sqnorm3 (fun i => (fp q).1 i - c.refPose.trans i) ≤ 1/400))
  rw [osLatch]
  split_ifs with h
  · rw [decide_eq_true h.1]
    simp [TaskDyn.setExtFlag]
  · rcases Bool.eq_false_or_eq_true c.ds.extFlag with hf | hf
    · simp [hf]
    · have hc : ¬ (sqnorm3 (fun i => (fp q).1 i - c.refPose.trans i) ≤ 1/400) :=
        fun hc => h ⟨hc, hf⟩
      rw [decide_eq_false hc]
      simp [hf]

theorem os_action_refPose_trans (fp : Vec 7 → Vec 3 × Mat 3 3) (jac : Vec 7 → Mat 6 7)
    (request : Vec 3 → Vec 3) (so3log : Mat 3 3 → Mat 3 3 → Vec 3)
    (c : OSCtrl) (q dq : Vec 7) :
    ((OSCtrl.action fp jac request so3log c q dq).2).refPose.trans = c.refPose.trans := rfl

theorem os_action_writer (fp : Vec 7 → Vec 3 × Mat 3 3) (jac : Vec 7 → Mat 6 7)
    (request : Vec 3 → Vec 3) (so3log : Mat 3 3 → Mat 3 3 → Vec 3)
    (c : OSCtrl) (q dq : Vec 7) :
    ((OSCtrl.action fp jac request so3log c q dq).2).writer
      = c.writer ++ (if c.ds.extFlag then [(fp q).1] else []) := by
  by_cases hf : c.ds.extFlag <;> simp [OSCtrl.action, hf]

theorem osTrace_refTrans (fp : Vec 7 → Vec 3 × Mat 3 3) (jac : Vec 7 → Mat 6 7)
    (request : Vec 3 → Vec 3) (so3log : Mat 3 3 → Mat 3 3 → Vec 3)
    (q dq : ℕ → Vec 7) (c0 : OSCtrl) :
    ∀ n, (osTrace fp jac request so3log q dq c0 n).refPose.trans = c0.refPose.trans := by
  intro n
  induction n with
  | zero => rfl
  | succ n ih => rw [osTrace, os_action_refPose_trans, ih]

theorem osTrace_ext_rec (fp : Vec 7 → Vec 3 × Mat 3 3) (jac : Vec 7 → Mat 6 7)
    (request : Vec 3 → Vec 3) (so3log : Mat 3 3 → Mat 3 3 → Vec 3)
    (q dq : ℕ → Vec 7) (c0 : OSCtrl) (n : ℕ) :
    (osTrace fp jac request so3log q dq c0 (n+1)).ds.extFlag
      = ((osTrace fp jac request so3log q dq c0 n).ds.extFlag
         || decide (osWithin fp q c0.refPose.trans n)) := by
  rw [osTrace, os_action_ext]
  simp only [osTrace_refTrans, osWithin]

theorem osTrace_ext_mono (fp : Vec 7 → Vec 3 × Mat 3 3) (jac : Vec 7 → Mat 6 7)
    (request : Vec 3 → Vec 3) (so3log : Mat 3 3 → Mat 3 3 → Vec 3)
    (q dq : ℕ → Vec 7) (c0 : OSCtrl) :
    ∀ m n, m ≤ n → (osTrace fp jac request so3log q dq c0 m).ds.extFlag = true →
      (osTrace fp jac request so3log q dq c0 n).ds.extFlag = true := by
  intro m n h hm
  induction h with
  | refl => exact hm
  | step h ih =>
      rw [osTrace_ext_rec]
      simp [ih]

theorem osTrace_ext_iff (fp : Vec 7 → Vec 3 × Mat 3 3) (jac : Vec 7 → Mat 6 7)
    (request : Vec 3 → Vec 3) (so3log : Mat 3 3 → Mat 3 3 → Vec 3)
    (q dq : ℕ → Vec 7) (refPose : SE3) :
    ∀ n, (osTrace fp jac request so3log q dq (OSCtrl.init refPose) n).ds.extFlag = true
      ↔ ∃ k, k < n ∧ osWithin fp q refPose.trans k := by
  intro n
  induction n with
  | zero => simp [osTrace, OSCtrl.init, TaskDyn.initOS]
  | succ n ih =>
      rw [osTrace_ext_rec]
      have hrt : (OSCtrl.init refPose).refPose.trans = refPose.trans := rfl
      rw [hrt]
      simp only [Bool.or_eq_true, decide_eq_true_eq, ih]
      constructor
      · rintro (⟨k, hk, hw⟩ | hw)
        · exact ⟨k, Nat.lt_succ_of_lt hk, hw⟩
        · exact ⟨n, Nat.lt_succ_self n, hw⟩
      · rintro ⟨k, hk, hw⟩
        rcases Nat.lt_succ_iff_lt_or_eq.mp hk with h | h
        · exact Or.inl ⟨k, h, hw⟩
        · exact Or.inr (h ▸ hw)

theorem osTrace_writer_empty (fp : Vec 7 → Vec 3 × Mat 3 3) (jac : Vec 7 → Mat 6 7)
    (request : Vec 3 → Vec 3) (so3log : Mat 3 3 → Mat 3 3 → Vec 3)
    (q dq : ℕ → Vec 7) (refPose : SE3) :
    ∀ n, (osTrace fp jac request so3log q dq (OSCtrl.init refPose) n).ds.extFlag = false →
      (osTrace fp jac request so3log q dq (OSCtrl.init refPose) n).writer = [] := by
  intro n
  induction n with
  | zero => intro _; rfl
  | succ n ih =>
      intro h
      have hrec := osTrace_ext_rec fp jac request so3log q dq (OSCtrl.init refPose) n
      rw [h] at hrec
      rcases Bool.eq_false_or_eq_true
        (osTrace fp jac request so3log q dq (OSCtrl.init refPose) n).ds.extFlag with h1 | h1
      · rw [h1] at hrec
        simp at hrec
      · rw [osTrace, os_action_writer, ih h1, h1]
        simp

theorem mb_enter_inv (stop : ℕ → Bool) (ee : ℕ → Vec 3) (xDes : Vec 3) (next0 : ℤ) :
    ∀ n, (mbRun stop ee xDes next0 n).enter = !(mbRun stop ee xDes next0 n).extFlag := by
  intro n
  induction n with
  | zero => rfl
  | succ n ih =>
      rw [mbRun, mbLoopStep]
      split_ifs with h1 h2 h3 h4 <;> simp_all

theorem mb_ext_rec (stop : ℕ → Bool) (ee : ℕ → Vec 3) (xDes : Vec 3) (next0 : ℤ)
    (n : ℕ) :
    (mbRun stop ee xDes next0 (n+1)).extFlag
      = ((mbRun stop ee xDes next0 n).extFlag
         || (!(mbRun stop ee xDes next0 n).reason.isSome
             && decide ((mbRun stop ee xDes next0 n).t ≤ 40)
             && !(stop n)
             && decide (sqnorm3 (fun i => xDes i - ee n i) ≤ 1/10000))) := by
  have hinv := mb_enter_inv stop ee xDes next0 n
  rw [mbRun, mbLoopStep]
  by_cases h1 : (mbRun stop ee xDes next0 n).reason.isSome
  · rw [if_pos h1]
    simp [h1]
  · rw [if_neg h1]
    by_cases h2 : ¬ ((mbRun stop ee xDes next0 n).t ≤ 40)
    · rw [if_pos h2, decide_eq_false h2]
      simp [h1]
    · rw [if_neg h2]
      by_cases h3 : stop n = true
      · rw [if_pos h3]
        simp [h1, h3]
      · rw [if_neg h3]
        by_cases h4 : (sqnorm3 (fun i => xDes i - ee n i) ≤ 1/10000)
            ∧ (mbRun stop ee xDes next0 n).enter = true
        · rw [if_pos h4, decide_eq_true h4.1, decide_eq_true (not_not.mp h2)]
          simp [h1, h3]
        · rw [if_neg h4]
          rcases Bool.eq_false_or_eq_true ((mbRun stop ee xDes next0 n).extFlag)
            with he | he
          · simp [he]
          · have hnw : ¬ (sqnorm3 (fun i => xDes i - ee n i) ≤ 1/10000) := by
              intro hw
              exact h4 ⟨hw, by rw [hinv, he]; rfl⟩
            rw [decide_eq_false hnw]
            simp [he]

theorem mb_ext_mono (stop : ℕ → Bool) (ee : ℕ → Vec 3) (xDes : Vec 3) (next0 : ℤ) :
    ∀ m n, m ≤ n → (mbRun stop ee xDes next0 m).extFlag = true →
      (mbRun stop ee xDes next0 n).extFlag = true := by
  intro m n h hm
  induction h with
  | refl => exact hm
  | step h ih =>
      rw [mb_ext_rec]
      simp [ih]

/-- Claim C1: the external-mode latch is a one-way latch.  In the
operation-space demo (latch inside the controller's action, radius 0.05) the
flag starts false and equals true exactly when some earlier tick brought the
end-effector translation within the radius of the reference translation, hence
it is set at the first such tick and never cleared.  In the QP demo (latch in
the main loop via setExternalDynamics, radius 0.01) the flag starts false, is
set on the first executed tick whose end-effector position is within the
radius of the target, and is monotone thereafter. -/
theorem latch_one_way (fp : Vec 7 → Vec 3 × Mat 3 3) (jac : Vec 7 → Mat 6 7)
    (request : Vec 3 → Vec 3) (so3log : Mat 3 3 → Mat 3 3 → Vec 3)
    (q dq : ℕ → Vec 7) (refPose : SE3)
    (stop : ℕ → Bool) (ee : ℕ → Vec 3) (xDes : Vec 3) (next0 : ℤ) :
    ((osTrace fp jac request so3log q dq (OSCtrl.init refPose) 0).ds.extFlag = false
     ∧ (∀ n, (osTrace fp jac request so3log q dq (OSCtrl.init refPose) n).ds.extFlag = true
          ↔ ∃ k, k < n ∧ osWithin fp q refPose.trans k)
     ∧ (∀ m n, m ≤ n →
          (osTrace fp jac request so3log q dq (OSCtrl.init refPose) m).ds.extFlag = true →
          (osTrace fp jac request so3log q dq (OSCtrl.init refPose) n).ds.extFlag = true))
    ∧ ((mbRun stop ee xDes next0 0).extFlag = false
     ∧ (∀ n, (mbRun stop ee xDes next0 (n+1)).extFlag
          = ((mbRun stop ee xDes next0 n).extFlag
             || (!(mbRun stop ee xDes next0 n).reason.isSome
                 && decide ((mbRun stop ee xDes next0 n).t ≤ 40)
                 && !(stop n)
                 && decide (sqnorm3 (fun i => xDes i - ee n i) ≤ 1/10000))))
     ∧ (∀ m n, m ≤ n → (mbRun stop ee xDes next0 m).extFlag = true →
          (mbRun stop ee xDes next0 n).extFlag = true)) := by
  refine ⟨⟨rfl, osTrace_ext_iff fp jac request so3log q dq refPose, ?_⟩,
    rfl, mb_ext_rec stop ee xDes next0, mb_ext_mono stop ee xDes next0⟩
  intro m n h hm
  exact osTrace_ext_mono fp jac request so3log q dq (OSCtrl.init refPose) m n h hm

/-- Witness for claim C1 at concrete inputs: with the end-effector always at the
reference translation (respectively at the target), the latch is set after one
tick and the monotonicity component keeps it set at tick 2. -/
theorem latch_one_way_witness :
    (osTrace cexFp (fun _ => cexJac) cexReq cexLog (fun _ => 0) (fun _ => 0)
        (OSCtrl.init { trans := 0, rot := 1, v := 0 }) 2).ds.extFlag = true
    ∧ (mbRun (fun _ => false) (fun _ => 0) 0 0 2).extFlag = true := by
  have h := latch_one_way cexFp (fun _ => cexJac) cexReq cexLog
    (fun _ => 0) (fun _ => 0) { trans := 0, rot := 1, v := 0 }
    (fun _ => false) (fun _ => 0) 0 0
  constructor
  · refine h.1.2.2 1 2 (by omega) ?_
    refine (h.1.2.1 1).mpr ⟨0, by omega, ?_⟩
    norm_num [osWithin, cexFp, sqnorm3]
  · refine h.2.2.2 1 2 (by omega) ?_
    rw [h.2.2.1 0]
    norm_num [mbRun, MBLoop.start, sqnorm3]

/-- Claim C9 counterexample: the operation-space demo's CSV writer is opened on
the fixed file name demo_os_0.csv; for the selected demo identifier 1 (also
the default selection) the name the claim demands would be demo_os_1.csv,
which differs. -/
theorem log_filename_cex :
    demoName (some "1") = "demo_1" ∧ demoName none = "demo_1"
      ∧ osLogFile ≠ "demo_os_1.csv" := by
  refine ⟨rfl, rfl, ?_⟩
  intro h
  simp [osLogFile] at h

/-- Claim C9 amended: the operation-space demo writes its CSV log to the fixed
file name demo_os_0.csv regardless of the selected demo identifier; exactly one
row, the 3-vector current end-effector position, is appended per tick that
begins with the external flag set; rows are only ever appended; and no row is
written while the latch has not yet been set. -/
theorem os_logging (fp : Vec 7 → Vec 3 × Mat 3 3) (jac : Vec 7 → Mat 6 7)
    (request : Vec 3 → Vec 3) (so3log : Mat 3 3 → Mat 3 3 → Vec 3)
    (q dq : ℕ → Vec 7) (refPose : SE3) :
    osLogFile = "demo_os_0.csv"
    ∧ (∀ n, (osTrace fp jac request so3log q dq (OSCtrl.init refPose) (n+1)).writer
        = (osTrace fp jac request so3log q dq (OSCtrl.init refPose) n).writer
          ++ (if (osTrace fp jac request so3log q dq (OSCtrl.init refPose) n).ds.extFlag
              then [(fp (q n)).1] else []))
    ∧ (∀ n, (osTrace fp jac request so3log q dq (OSCtrl.init refPose) n).ds.extFlag = false →
        (osTrace fp jac request so3log q dq (OSCtrl.init refPose) n).writer = []) := by
  refine ⟨rfl, ?_, osTrace_writer_empty fp jac request so3log q dq refPose⟩
  intro n
  rw [osTrace, os_action_writer]

/-- Witness for the amended claim C9 at concrete inputs: one tick away from the
reference, the latch is still unset and the log is still empty. -/
theorem os_logging_witness :
    (osTrace cexFp (fun _ => cexJac) cexReq cexLog (fun _ => 0) (fun _ => 0)
        (OSCtrl.init cexRefPose) 1).writer = [] := by
  refine (os_logging cexFp (fun _ => cexJac) cexReq cexLog (fun _ => 0) (fun _ => 0)
    cexRefPose).2.2 1 ?_
  rw [osTrace_ext_rec]
  have hw : ¬ osWithin cexFp (fun _ => 0) (OSCtrl.init cexRefPose).refPose.trans 0 := by
    norm_num [osWithin, cexFp, OSCtrl.init, cexRefPose, sqnorm3,
      Matrix.cons_val_zero, Matrix.cons_val_one, Matrix.head_cons]
  rw [decide_eq_false hw]
  rfl

/-- Claim C8 counterexample: on a configuration holding (1,0,0) at the
top-level key "offset" and (2,0,0) at the nested key "dynamics.offset", the
operation-space demo reads the former, so the offset it uses differs from the
value stored at dynamics.offset. -/
theorem offset_key_cex :
    osOffsetOf cexCfg = some ![1, 0, 0]
    ∧ qpOffsetOf cexCfg = some ![2, 0, 0]
    ∧ osOffsetOf cexCfg ≠ qpOffsetOf cexCfg := by
  refine ⟨rfl, rfl, ?_⟩
  intro h
  rw [show osOffsetOf cexCfg = some ![1, 0, 0] from rfl,
      show qpOffsetOf cexCfg = some ![2, 0, 0] from rfl] at h
  have h0 := congrFun (Option.some.inj h) 0
  norm_num [Matrix.cons_val_zero] at h0

/-- Claim C8 amended: the operation-space demo reads the offset from the
top-level YAML key "offset" while the QP demos read the nested key
"dynamics.offset"; in every demo the displayed trajectories are the loaded CSV
files with the offset added to every row. -/
theorem trajectory_offset_rows (readCsv : ℕ → List (Vec 3)) (offset : Vec 3)
    (cfg : Yaml) :
    osOffsetOf cfg = (cfg.get "offset").bind Yaml.asVec3
    ∧ (∀ k : Fin 7, (loadTrajOS readCsv offset)[k.val]?
        = some (translateRows offset (readCsv (k.val + 1))))
    ∧ (∀ k : Fin 1, (loadTrajQP readCsv offset)[k.val]?
        = some (translateRows offset (readCsv (k.val + 1))))
    ∧ (∀ rows : List (Vec 3), ∀ j : ℕ, ∀ hj : j < rows.length,
        (translateRows offset rows)[j]? = some (rows.get ⟨j, hj⟩ + offset)) := by
  refine ⟨rfl, ?_, ?_, ?_⟩
  · intro k
    simp [loadTrajOS, List.getElem?_map, List.getElem?_range, k.isLt]
  · intro k
    simp [loadTrajQP, List.getElem?_map, List.getElem?_range, k.isLt]
  · intro rows j hj
    simp [translateRows, List.getElem?_map, List.getElem?_eq_getElem hj,
      List.get_eq_getElem]

/-- Witness for the amended claim C8 at concrete inputs. -/
theorem trajectory_offset_rows_witness :
    (translateRows ![1, 0, 0] [(0 : Vec 3)])[0]?
      = some (([(0 : Vec 3)].get ⟨0, by simp⟩) + ![1, 0, 0]) :=
  (trajectory_offset_rows (fun _ => [(0 : Vec 3)]) ![1, 0, 0] cexCfg).2.2.2
    [(0 : Vec 3)] 0 (by simp)

theorem os_frozen (stop : ℕ → Bool) (ee : ℕ → Vec 3) (offset : Vec 3) (next0 : ℤ)
    (n : ℕ) (h : (osRun stop ee offset next0 n).reason.isSome = true) :
    osRun stop ee offset next0 (n+1) = osRun stop ee offset next0 n := by
  rw [osRun, osLoopStep, if_pos h]

theorem os_reason_mono (stop : ℕ → Bool) (ee : ℕ → Vec 3) (offset : Vec 3)
    (next0 : ℤ) (n : ℕ) :
    (osRun stop ee offset next0 (n+1)).reason = none →
      (osRun stop ee offset next0 n).reason = none := by
  intro h
  by_contra hne
  have hs : (osRun stop ee offset next0 n).reason.isSome = true :=
    Option.ne_none_iff_isSome.mp hne
  rw [os_frozen stop ee offset next0 n hs] at h
  exact hne h

theorem os_next_step (stop : ℕ → Bool) (ee : ℕ → Vec 3) (offset : Vec 3)
    (next0 : ℤ) (n : ℕ)
    (h : (osRun stop ee offset next0 (n+1)).reason = none) :
    (osRun stop ee offset next0 (n+1)).next = (osRun stop ee offset next0 n).next + 1 := by
  have h0 := os_reason_mono stop ee offset next0 n h
  have hs : ¬ ((osRun stop ee offset next0 n).reason.isSome = true) := by simp [h0]
  rw [osRun, osLoopStep] at h ⊢
  rw [if_neg hs] at h ⊢
  by_cases h2 : ¬ ((osRun stop ee offset next0 n).t ≤ 20)
  · rw [if_pos h2] at h
    simp at h
  · rw [if_neg h2] at h ⊢
    by_cases h3 : stop n = true
    · rw [if_pos h3] at h
      simp at h
    · rw [if_neg h3] at h ⊢
      by_cases h4 : sqnorm3 (fun i => ee n i - offset i) ≤ 1/400
      · rw [if_pos h4] at h
        simp at h
      · rw [if_neg h4]

theorem os_t_eq (stop : ℕ → Bool) (ee : ℕ → Vec 3) (offset : Vec 3) (next0 : ℤ) :
    ∀ n, (osRun stop ee offset next0 n).reason = none →
      (osRun stop ee offset next0 n).t = (n : ℚ) * (1/1000) := by
  intro n
  induction n with
  | zero => intro _; simp [osRun, OSLoop.start]
  | succ n ih =>
      intro h
      have h0 := os_reason_mono stop ee offset next0 n h
      have hs : ¬ ((osRun stop ee offset next0 n).reason.isSome = true) := by simp [h0]
      rw [osRun, osLoopStep] at h ⊢
      rw [if_neg hs] at h ⊢
      by_cases h2 : ¬ ((osRun stop ee offset next0 n).t ≤ 20)
      · rw [if_pos h2] at h
        simp at h
      · rw [if_neg h2] at h ⊢
        by_cases h3 : stop n = true
        · rw [if_pos h3] at h
          simp at h
        · rw [if_neg h3] at h ⊢
          by_cases h4 : sqnorm3 (fun i => ee n i - offset i) ≤ 1/400
          · rw [if_pos h4] at h
            simp at h
          · rw [if_neg h4]
            show (osRun stop ee offset next0 n).t + 1/1000 = _
            rw [ih h0]
            push_cast
            ring

theorem os_halts (stop : ℕ → Bool) (ee : ℕ → Vec 3) (offset : Vec 3) (next0 : ℤ) :
    (osRun stop ee offset next0 20002).reason.isSome = true := by
  by_cases h : (osRun stop ee offset next0 20001).reason = none
  · have ht := os_t_eq stop ee offset next0 20001 h
    have hs : ¬ ((osRun stop ee offset next0 20001).reason.isSome = true) := by simp [h]
    have hcond : ¬ ((osRun stop ee offset next0 20001).t ≤ 20) := by
      rw [ht]
      norm_num
    rw [show (20002 : ℕ) = 20001 + 1 from rfl, osRun, osLoopStep, if_neg hs, if_pos hcond]
    rfl
  · have hs := Option.ne_none_iff_isSome.mp h
    rw [show (20002 : ℕ) = 20001 + 1 from rfl, os_frozen stop ee offset next0 20001 hs]
    exact hs

theorem os_halt_cause (stop : ℕ → Bool) (ee : ℕ → Vec 3) (offset : Vec 3)
    (next0 : ℤ) (n : ℕ)
    (h : (osRun stop ee offset next0 n).reason = none)
    (h2 : (osRun stop ee offset next0 (n+1)).reason ≠ none) :
    ¬ ((osRun stop ee offset next0 n).t ≤ 20) ∨ stop n = true
      ∨ sqnorm3 (fun i => ee n i - offset i) ≤ 1/400 := by
  have hs : ¬ ((osRun stop ee offset next0 n).reason.isSome = true) := by simp [h]
  rw [osRun, osLoopStep, if_neg hs] at h2
  by_cases hh : ¬ ((osRun stop ee offset next0 n).t ≤ 20)
  · exact Or.inl hh
  · rw [if_neg hh] at h2
    by_cases hstop : stop n = true
    · exact Or.inr (Or.inl hstop)
    · rw [if_neg hstop] at h2
      by_cases hgoal : sqnorm3 (fun i => ee n i - offset i) ≤ 1/400
      · exact Or.inr (Or.inr hgoal)
      · rw [if_neg hgoal] at h2
        exact absurd h h2

theorem mb_frozen (stop : ℕ → Bool) (ee : ℕ → Vec 3) (xDes : Vec 3) (next0 : ℤ)
    (n : ℕ) (h : (mbRun stop ee xDes next0 n).reason.isSome = true) :
    mbRun stop ee xDes next0 (n+1) = mbRun stop ee xDes next0 n := by
  rw [mbRun, mbLoopStep, if_pos h]

theorem mb_reason_mono (stop : ℕ → Bool) (ee : ℕ → Vec 3) (xDes : Vec 3)
    (next0 : ℤ) (n : ℕ) :
    (mbRun stop ee xDes next0 (n+1)).reason = none →
      (mbRun stop ee xDes next0 n).reason = none := by
  intro h
  by_contra hne
  have hs : (mbRun stop ee xDes next0 n).reason.isSome = true :=
    Option.ne_none_iff_isSome.mp hne
  rw [mb_frozen stop ee xDes next0 n hs] at h
  exact hne h

theorem mb_next_step (stop : ℕ → Bool) (ee : ℕ → Vec 3) (xDes : Vec 3)
    (next0 : ℤ) (n : ℕ)
    (h : (mbRun stop ee xDes next0 (n+1)).reason = none) :
    (mbRun stop ee xDes next0 (n+1)).next = (mbRun stop ee xDes next0 n).next + 1 := by
  have h0 := mb_reason_mono stop ee xDes next0 n h
  have hs : ¬ ((mbRun stop ee xDes next0 n).reason.isSome = true) := by simp [h0]
  rw [mbRun, mbLoopStep] at h ⊢
  rw [if_neg hs] at h ⊢
  by_cases h2 : ¬ ((mbRun stop ee xDes next0 n).t ≤ 40)
  · rw [if_pos h2] at h
    simp at h
  · rw [if_neg h2] at h ⊢
    by_cases h3 : stop n = true
    · rw [if_pos h3] at h
      simp at h
    · rw [if_neg h3] at h ⊢
      by_cases h4 : sqnorm3 (fun i => xDes i - ee n i) ≤ 1/10000
          ∧ (mbRun stop ee xDes next0 n).enter = true
      · rw [if_pos h4]
      · rw [if_neg h4]

theorem mb_t_eq (stop : ℕ → Bool) (ee : ℕ → Vec 3) (xDes : Vec 3) (next0 : ℤ) :
    ∀ n, (mbRun stop ee xDes next0 n).reason = none →
      (mbRun stop ee xDes next0 n).t = (n : ℚ) * (1/1000) := by
  intro n
  induction n with
  | zero => intro _; simp [mbRun, MBLoop.start]
  | succ n ih =>
      intro h
      have h0 := mb_reason_mono stop ee xDes next0 n h
      have hs : ¬ ((mbRun stop ee xDes next0 n).reason.isSome = true) := by simp [h0]
      rw [mbRun, mbLoopStep] at h ⊢
      rw [if_neg hs] at h ⊢
      by_cases h2 : ¬ ((mbRun stop ee xDes next0 n).t ≤ 40)
      · rw [if_pos h2] at h
        simp at h
      · rw [if_neg h2] at h ⊢
        by_cases h3 : stop n = true
        · rw [if_pos h3] at h
          simp at h
        · rw [if_neg h3] at h ⊢
          by_cases h4 : sqnorm3 (fun i => xDes i - ee n i) ≤ 1/10000
              ∧ (mbRun stop ee xDes next0 n).enter = true
          · rw [if_pos h4]
            show (mbRun stop ee xDes next0 n).t + 1/1000 = _
            rw [ih h0]
            push_cast
            ring
          · rw [if_neg h4]
            show (mbRun stop ee xDes next0 n).t + 1/1000 = _
            rw [ih h0]
            push_cast
            ring

theorem mb_halts (stop : ℕ → Bool) (ee : ℕ → Vec 3) (xDes : Vec 3) (next0 : ℤ) :
    (mbRun stop ee xDes next0 40002).reason.isSome = true := by
  by_cases h : (mbRun stop ee xDes next0 40001).reason = none
  · have ht := mb_t_eq stop ee xDes next0 40001 h
    have hs : ¬ ((mbRun stop ee xDes next0 40001).reason.isSome = true) := by simp [h]
    have hcond : ¬ ((mbRun stop ee xDes next0 40001).t ≤ 40) := by
      rw [ht]
      norm_num
    rw [show (40002 : ℕ) = 40001 + 1 from rfl, mbRun, mbLoopStep, if_neg hs, if_pos hcond]
    rfl
  · have hs := Option.ne_none_iff_isSome.mp h
    rw [show (40002 : ℕ) = 40001 + 1 from rfl, mb_frozen stop ee xDes next0 40001 hs]
    exact hs

theorem mb_halt_cause (stop : ℕ → Bool) (ee : ℕ → Vec 3) (xDes : Vec 3)
    (next0 : ℤ) (n : ℕ)
    (h : (mbRun stop ee xDes next0 n).reason = none)
    (h2 : (mbRun stop ee xDes next0 (n+1)).reason ≠ none) :
    ¬ ((mbRun stop ee xDes next0 n).t ≤ 40) ∨ stop n = true := by
  have hs : ¬ ((mbRun stop ee xDes next0 n).reason.isSome = true) := by simp [h]
  rw [mbRun, mbLoopStep, if_neg hs] at h2
  by_cases hh : ¬ ((mbRun stop ee xDes next0 n).t ≤ 40)
  · exact Or.inl hh
  · rw [if_neg hh] at h2
    by_cases hstop : stop n = true
    · exact Or.inr hstop
    · rw [if_neg hstop] at h2
      by_cases h4 : sqnorm3 (fun i => xDes i - ee n i) ≤ 1/10000
          ∧ (mbRun stop ee xDes next0 n).enter = true
      · rw [if_pos h4] at h2
        exact absurd h h2
      · rw [if_neg h4] at h2
        exact absurd h h2

theorem os_next_strict (stop : ℕ → Bool) (ee : ℕ → Vec 3) (offset : Vec 3)
    (next0 : ℤ) :
    ∀ m n, m < n → (osRun stop ee offset next0 n).reason = none →
      (osRun stop ee offset next0 m).next < (osRun stop ee offset next0 n).next := by
  intro m n
  induction n with
  | zero => intro hmn _; exact absurd hmn (Nat.not_lt_zero m)
  | succ n ih =>
      intro hmn h
      have h0 := os_reason_mono stop ee offset next0 n h
      have hstep := os_next_step stop ee offset next0 n h
      rcases Nat.lt_succ_iff_lt_or_eq.mp hmn with hm | hm
      · exact lt_trans (ih hm h0) (by rw [hstep]; omega)
      · rw [hm, hstep]
        omega

theorem mb_next_strict (stop : ℕ → Bool) (ee : ℕ → Vec 3) (xDes : Vec 3)
    (next0 : ℤ) :
    ∀ m n, m < n → (mbRun stop ee xDes next0 n).reason = none →
      (mbRun stop ee xDes next0 m).next < (mbRun stop ee xDes next0 n).next := by
  intro m n
  induction n with
  | zero => intro hmn _; exact absurd hmn (Nat.not_lt_zero m)
  | succ n ih =>
      intro hmn h
      have h0 := mb_reason_mono stop ee xDes next0 n h
      have hstep := mb_next_step stop ee xDes next0 n h
      rcases Nat.lt_succ_iff_lt_or_eq.mp hmn with hm | hm
      · exact lt_trans (ih hm h0) (by rw [hstep]; omega)
      · rw [hm, hstep]
        omega

/-- Claim C6: across ticks, each loop's next deadline is strictly monotone
increasing: every iteration that stays live advances it by exactly the nominal
1 ms period before sleeping until it, so during a run it never decreases or
repeats (in both the operation-space and the QP demo loops). -/
theorem next_deadline_monotone (stop : ℕ → Bool) (ee : ℕ → Vec 3)
    (offset xDes : Vec 3) (next0 next1 : ℤ) :
    ((∀ n, (osRun stop ee offset next0 (n+1)).reason = none →
        (osRun stop ee offset next0 (n+1)).next
          = (osRun stop ee offset next0 n).next + 1)
     ∧ (∀ m n, m < n → (osRun stop ee offset next0 n).reason = none →
        (osRun stop ee offset next0 m).next < (osRun stop ee offset next0 n).next))
    ∧ ((∀ n, (mbRun stop ee xDes next1 (n+1)).reason = none →
        (mbRun stop ee xDes next1 (n+1)).next
          = (mbRun stop ee xDes next1 n).next + 1)
     ∧ (∀ m n, m < n → (mbRun stop ee xDes next1 n).reason = none →
        (mbRun stop ee xDes next1 m).next < (mbRun stop ee xDes next1 n).next)) :=
  ⟨⟨fun n => os_next_step stop ee offset next0 n, os_next_strict stop ee offset next0⟩,
   ⟨fun n => mb_next_step stop ee xDes next1 n, mb_next_strict stop ee xDes next1⟩⟩

/-- Witness for claim C6 at concrete inputs: the first iteration of each loop
completes (end effector away from the target, engine running) and advances the
deadline by exactly one period. -/
theorem next_deadline_monotone_witness :
    (osRun (fun _ => false) (fun _ => ![1, 0, 0]) 0 0 1).next
      = (osRun (fun _ => false) (fun _ => ![1, 0, 0]) 0 0 0).next + 1
    ∧ (mbRun (fun _ => false) (fun _ => ![1, 0, 0]) 0 0 1).next
      = (mbRun (fun _ => false) (fun _ => ![1, 0, 0]) 0 0 0).next + 1 := by
  have h := next_deadline_monotone (fun _ => false) (fun _ => ![1, 0, 0]) 0 0 0 0
  constructor
  · refine h.1.1 0 ?_
    show (osLoopStep (fun _ => false) (fun _ => ![1, 0, 0]) 0 0 (OSLoop.start 0)).reason
      = none
    norm_num [osLoopStep, OSLoop.start, sqnorm3,
      Matrix.cons_val_zero, Matrix.cons_val_one, Matrix.head_cons]
  · refine h.2.1 0 ?_
    show (mbLoopStep (fun _ => false) (fun _ => ![1, 0, 0]) 0 0 (MBLoop.start 0)).reason
      = none
    norm_num [mbLoopStep, MBLoop.start, sqnorm3,
      Matrix.cons_val_zero, Matrix.cons_val_one, Matrix.head_cons]

/-- Claim C7: both demo loops terminate: the operation-space loop has halted by
iteration 20002 and the QP loop by iteration 40002, because simulated time
(advanced by dt = 1 ms per iteration) exceeds the horizon if nothing halted
the loop earlier; and a live iteration halts only because the horizon check
t <= T fails, the engine's step returns stop, or, in the operation-space demo
only, the end-effector position comes within the 5 cm goal radius of the goal
translation. -/
theorem loop_terminates (stop : ℕ → Bool) (ee : ℕ → Vec 3) (offset xDes : Vec 3)
    (next0 next1 : ℤ) :
    ((osRun stop ee offset next0 20002).reason.isSome = true
     ∧ ∀ n, (osRun stop ee offset next0 n).reason = none →
         (osRun stop ee offset next0 (n+1)).reason ≠ none →
         (¬ ((osRun stop ee offset next0 n).t ≤ 20) ∨ stop n = true
          ∨ sqnorm3 (fun i => ee n i - offset i) ≤ 1/400))
    ∧ ((mbRun stop ee xDes next1 40002).reason.isSome = true
     ∧ ∀ n, (mbRun stop ee xDes next1 n).reason = none →
         (mbRun stop ee xDes next1 (n+1)).reason ≠ none →
         (¬ ((mbRun stop ee xDes next1 n).t ≤ 40) ∨ stop n = true)) :=
  ⟨⟨os_halts stop ee offset next0, fun n => os_halt_cause stop ee offset next0 n⟩,
   ⟨mb_halts stop ee xDes next1, fun n => mb_halt_cause stop ee xDes next1 n⟩⟩

/-- Witness for claim C7 at concrete inputs: with the engine requesting stop at
tick 0, the halt transition of either loop happens for one of the listed
reasons. -/
theorem loop_terminates_witness :
    (¬ ((osRun (fun _ => true) (fun _ => 0) 0 0 0).t ≤ 20) ∨ (fun _ : ℕ => true) 0 = true
      ∨ sqnorm3 (fun i => (fun _ : ℕ => (0 : Vec 3)) 0 i - (0 : Vec 3) i) ≤ 1/400)
    ∧ (¬ ((mbRun (fun _ => true) (fun _ => 0) 0 0 0).t ≤ 40)
       ∨ (fun _ : ℕ => true) 0 = true) := by
  have h := loop_terminates (fun _ => true) (fun _ => 0) 0 0 0 0
  constructor
  · refine h.1.2 0 rfl ?_
    intro hnone
    rw [show osRun (fun _ => true) (fun _ => 0) 0 0 1
        = osLoopStep (fun _ => true) (fun _ => 0) 0 0 (OSLoop.start 0) from rfl] at hnone
    norm_num [osLoopStep, OSLoop.start] at hnone
    exact Option.noConfusion hnone
  · refine h.2.2 0 rfl ?_
    intro hnone
    rw [show mbRun (fun _ => true) (fun _ => 0) 0 0 1
        = mbLoopStep (fun _ => true) (fun _ => 0) 0 0 (MBLoop.start 0) from rfl] at hnone
    norm_num [mbLoopStep, MBLoop.start] at hnone
    exact Option.noConfusion hnone

end Demo
